import Mathlib

/-!
Shallow embedding of `hphp/hack/src/hhbc/emit_class.rs` (class-lowering
orchestrator of the HHVM Hack compiler) and verification of its
specification.

The single source file under verification is `emit_class.rs`.  All the
crates it calls (`emit_attribute`, `emit_property`, `emit_method`,
`emit_type_hint`, `emit_type_constant`, `emit_body`, `hhbc_id`,
`closure_convert`, `oxidized`, `hhas_*`, `naming_special_names`) are
external collaborators: they are modelled either as fields of an explicit
`Collab` record of collaborator functions (when `emit_class.rs` only calls
them) or, for plain data types and string constants, as Lean structures
following the specification's data-model section.
-/

namespace EmitClass

/-- Source position (`oxidized::pos::Pos`, external to the source file);
modelled as an abstract token, a natural number. -/
abbrev Pos := Nat

/-- Modelled from the spec: the descriptor's source span, derived from the
declaration's source span (`hhas_pos::Span`, crate not under src/). -/
abbrev Span := Pos

/-- Modelled from the spec: conversion of a declaration position into the
descriptor span (`ast_class.span.clone().into()` in the source). -/
def posToSpan (p : Pos) : Span := p

/-- `oxidized` identifier `Id(Pos, String)` (called `Sid` for hints). -/
structure Sid where
  pos : Pos
  name : String
deriving DecidableEq

/-- `oxidized` positioned string `Pstring = (Pos, String)`. -/
structure PString where
  pos : Pos
  str : String
deriving DecidableEq

/-- `hhbc_id::class::Type`: a class identifier; modelled as its raw string
(the crate is external to the source file). -/
abbrev ClassType := String

/-- `hhbc_id::class::from_raw_string`: wraps a raw string unchanged. -/
def fromRawString (s : String) : ClassType := s

/-- `hhbc_id::class::Type::to_raw_string`: reads the raw string back. -/
def toRawString (t : ClassType) : String := t

/-- `oxidized::aast_defs::Tprim`: primitive type hints. -/
inductive Tprim where
  | Tnull
  | Tvoid
  | Tint
  | Tbool
  | Tfloat
  | Tstring
  | Tresource
  | Tnum
  | Tarraykey
  | Tnoreturn
deriving DecidableEq

/-- `oxidized::aast_defs::Hint = Hint(Pos, Box<Hint_>)` together with the
`Hint_` shape union, fused into one inductive (each constructor carries the
wrapper's position).  The shapes matched by `emit_class.rs` are modelled
with their payloads; the remaining shapes (which the source dispatches to a
catch-all arm) are represented by the constructors after `Hdynamic`. -/
inductive Hint where
  | Happly (pos : Pos) (id : Sid) (args : List Hint)
  | Hprim (pos : Pos) (p : Tprim)
  | Hany (pos : Pos)
  | Herr (pos : Pos)
  | Hmixed (pos : Pos)
  | Hnonnull (pos : Pos)
  | Habstr (pos : Pos) (s : String)
  | Harray (pos : Pos) (h1 h2 : Option Hint)
  | Hdarray (pos : Pos) (h1 h2 : Hint)
  | Hvarray (pos : Pos) (h : Hint)
  | HvarrayOrDarray (pos : Pos) (h1 : Option Hint) (h2 : Hint)
  | Hthis (pos : Pos)
  | Hdynamic (pos : Pos)
  | Hoption (pos : Pos) (h : Hint)
  | Hlike (pos : Pos) (h : Hint)
  | Hfun (pos : Pos) (params : List Hint) (ret : Hint)
  | Htuple (pos : Pos) (hs : List Hint)
  | Hshape (pos : Pos)
  | Haccess (pos : Pos) (root : Hint) (ids : List Sid)
  | Hsoft (pos : Pos) (h : Hint)
  | Hnothing (pos : Pos)
  | Hunion (pos : Pos) (hs : List Hint)
  | Hintersection (pos : Pos) (hs : List Hint)

/-- `oxidized::ast_defs::ClassKind`. -/
inductive ClassKind where
  | Cabstract
  | Cnormal
  | Cinterface
  | Ctrait
  | Cenum
deriving DecidableEq

/-- `oxidized::aast::Visibility`. -/
inductive Visibility where
  | Private
  | Public
  | Protected
deriving DecidableEq

/-- `oxidized::ast_defs::UseAsVisibility`. -/
inductive UseAsVisibility where
  | UseAsPublic
  | UseAsPrivate
  | UseAsProtected
  | UseAsFinal
deriving DecidableEq

/-- Placeholder for `oxidized` expressions: `emit_class.rs` never inspects
an expression, it only forwards them to collaborators. -/
structure Expr where
  repr : Nat
deriving DecidableEq

/-- `oxidized::aast::UserAttribute { name: Sid, params: Vec<Expr> }`. -/
structure UserAttribute where
  name : Sid
  params : List Expr
deriving DecidableEq

/-- `oxidized::aast::Tparam`: only the fields `emit_class.rs` touches (the
name) plus the reified marker forwarded to collaborators. -/
structure Tparam where
  name : Sid
  reified : Bool
deriving DecidableEq

/-- `oxidized::aast::ClassTparams { list: Vec<Tparam>, .. }`. -/
structure ClassTparams where
  list : List Tparam
deriving DecidableEq

/-- `oxidized::aast::TypeconstAbstractKind`. -/
inductive TypeconstAbstractKind where
  | TCAbstract (default : Option Hint)
  | TCPartiallyAbstract
  | TCConcrete

/-- `oxidized::aast::ClassTypeconst`: the fields `from_type_constant`
reads (`abstract_`, `name`, `type_`). -/
structure ClassTypeconst where
  abstract_ : TypeconstAbstractKind
  name : Sid
  type_ : Option Hint

/-- `oxidized::aast::ClassVar`: the fields `from_class_elt_classvars`
reads. -/
structure ClassVar where
  final_ : Bool
  abstract_ : Bool
  visibility : Visibility
  type_ : Option Hint
  id : Sid
  expr : Option Expr
  user_attributes : List UserAttribute
  doc_comment : Option String
  is_promoted_variadic : Bool
  is_static : Bool

/-- `oxidized::aast::Enum_ { base: Hint, constraint: Option<Hint> }`. -/
structure Enum_ where
  base : Hint
  constraint : Option Hint

/-- `oxidized::aast::UseAsAlias(Option<Sid>, Pstring, Option<Sid>,
Vec<UseAsVisibility>)`. -/
structure UseAsAlias where
  ido1 : Option Sid
  id : PString
  ido2 : Option Sid
  vis : List UseAsVisibility

/-- `oxidized::aast::InsteadofAlias(Sid, Pstring, Vec<Sid>)`. -/
structure InsteadofAlias where
  id1 : Sid
  id2 : PString
  ids : List Sid

/-- `oxidized::aast::MethodRedeclaration`: the field `emit_class.rs`
reads (`trait_`) plus identifying fields forwarded in the output pair. -/
structure MethodRedeclaration where
  name : Sid
  trait_ : Hint
  method : PString

/-- `oxidized::aast::XhpAttrTag`. -/
inductive XhpAttrTag where
  | Required
  | LateInit
deriving DecidableEq

/-- `oxidized::aast::XhpAttr(TypeHint, ClassVar, Option<XhpAttrTag>,
Option<(Pos, bool, Vec<Expr>)>)`. -/
structure XhpAttr where
  type_ : Option Hint
  class_var : ClassVar
  tag : Option XhpAttrTag
  maybe_enum : Option (Pos × Bool × List Expr)

/-- `oxidized::aast::XhpChild` (children expression tree); only forwarded,
never inspected, by the source file. -/
inductive XhpChild where
  | ChildName (id : Sid)
  | ChildList (children : List XhpChild)

/-- Placeholder for `oxidized` method declarations: `emit_class.rs`
forwards the method list to the `emit_method` collaborator unread. -/
structure Method_ where
  repr : Nat
deriving DecidableEq

/-- `oxidized::namespace_env::Env`: opaque namespace context, only
forwarded to collaborators by the source file. -/
structure NamespaceEnv where
  name : Option String
deriving DecidableEq

/-- `oxidized::aast::Class_`: the class declaration, restricted to the
fields `emit_class.rs` reads (unread fields are elided). -/
structure Class_ where
  span : Pos
  final_ : Bool
  is_xhp : Bool
  has_xhp_keyword : Bool
  kind : ClassKind
  name : Sid
  tparams : ClassTparams
  extends_ : List Hint
  uses : List Hint
  use_as_alias : List UseAsAlias
  insteadof_alias : List InsteadofAlias
  method_redeclarations : List MethodRedeclaration
  xhp_attrs : List XhpAttr
  xhp_category : Option (Pos × List PString)
  reqs : List (Hint × Bool)
  implements : List Hint
  xhp_children : List (Pos × XhpChild)
  consts' : List Nat
  typeconsts : List ClassTypeconst
  vars : List ClassVar
  methods : List Method_
  user_attributes : List UserAttribute
  namespace_ : NamespaceEnv
  enum_ : Option Enum_
  doc_comment : Option String

/-- `closure_convert::HoistKind`. -/
inductive HoistKind where
  | TopLevel
  | Hoisted
deriving DecidableEq

/-- `oxidized::ast_defs::FatalOp` (carried by fatal errors). -/
inductive FatalOp where
  | Parse
  | Runtime
  | RuntimeOmitFrame
deriving DecidableEq

/-- `instruction_sequence_rust::Error`: either an internal unrecoverable
error or a user-facing fatal with an operation kind, position and
message. -/
inductive Error where
  | Unrecoverable (msg : String)
  | IncludeTimeFatalException (op : FatalOp) (pos : Pos) (msg : String)
deriving DecidableEq

/-- Modelled from the spec: `emit_fatal::raise_fatal_parse`, the
parse-time fatal-error constructor (crate not under src/). -/
def raiseFatalParse (p : Pos) (msg : String) : Error :=
  Error.IncludeTimeFatalException FatalOp.Parse p msg

/-- Modelled from the spec: `emit_fatal::raise_fatal_runtime`, the
runtime-time fatal-error constructor (crate not under src/). -/
def raiseFatalRuntime (p : Pos) (msg : String) : Error :=
  Error.IncludeTimeFatalException FatalOp.Runtime p msg

/-- Placeholder for the constant-value collaborator's output
(`runtime::TypedValue`), never inspected by the source file. -/
structure TypedValue where
  repr : Nat
deriving DecidableEq

/-- `hhas_attribute_rust::HhasAttribute`: an attribute record with a name
and argument values. -/
structure HhasAttribute where
  name : String
  arguments : List TypedValue
deriving DecidableEq

/-- Modelled from the spec: the special attribute name marking a class
const (`naming_special_names::user_attributes::CONST`, crate not under
src/). -/
def uaConst : String := "__Const"

/-- Modelled from the spec: the special attribute name marking a class
sealed (`naming_special_names::user_attributes::SEALED`, crate not under
src/). -/
def uaSealed : String := "__Sealed"

/-- Modelled from the spec: `hhas_attribute::has_const`, the presence of a
"const" attribute in an attribute list (crate not under src/). -/
def hasConst (attrs : List HhasAttribute) : Bool :=
  attrs.any (fun a => a.name == uaConst)

/-- Modelled from the spec: `hhas_attribute::has_sealed`, the presence of a
"sealed" attribute in an attribute list (crate not under src/). -/
def hasSealed (attrs : List HhasAttribute) : Bool :=
  attrs.any (fun a => a.name == uaSealed)

-- Modelled from the spec: canonical keyword strings from the
-- naming-special-names table (`naming_special_names::typehints`, crate not
-- under src/).
namespace typehints

def MIXED : String := "mixed"

def NONNULL : String := "nonnull"

def ARRAY : String := "array"

def DARRAY : String := "darray"

def VARRAY : String := "varray"

def VARRAY_OR_DARRAY : String := "varray_or_darray"

def THIS : String := "this"

def DYNAMIC : String := "dynamic"

end typehints

/-- `hhas_type::constraint::Flags` member used by the source file
(`EXTENDED_HINT`), modelled as a named flag (crate not under src/). -/
inductive ConstraintFlag where
  | ExtendedHint
deriving DecidableEq

/-- `hhas_type::constraint::Type` (constraint record of a type-info). -/
structure Constraint where
  name : Option String
  flags : List ConstraintFlag
deriving DecidableEq

/-- `hhas_type::constraint::Type::make`. -/
def Constraint.make (name : Option String) (flags : List ConstraintFlag) : Constraint :=
  { name := name, flags := flags }

/-- `hhas_type::Info` (type information record). -/
structure TypeInfo where
  user_type : Option String
  type_constraint : Constraint
deriving DecidableEq

/-- `hhas_type::Info::make`. -/
def TypeInfo.make (user_type : Option String) (type_constraint : Constraint) : TypeInfo :=
  { user_type := user_type, type_constraint := type_constraint }

/-- `hhas_class_rust::TraitReqKind`. -/
inductive TraitReqKind where
  | MustExtend
  | MustImplement
deriving DecidableEq

/-- `hhas_type_const::HhasTypeConstant`. -/
structure HhasTypeConstant where
  name : String
  initializer : Option TypedValue
deriving DecidableEq

/-- Placeholder for the property collaborator's output
(`hhas_property_rust::HhasProperty`), never inspected by the source
file. -/
structure HhasProperty where
  repr : Nat
deriving DecidableEq

/-- Placeholder for the method collaborator's output
(`hhas_method::HhasMethod`), never inspected by the source file. -/
structure HhasMethod where
  repr : Nat
deriving DecidableEq

/-- An entry of the generic-upper-bound list computed by the `emit_body`
collaborator (a generic's name with its bound type-infos). -/
structure UpperBound where
  name : String
  bounds : List TypeInfo
deriving DecidableEq

/-- `hhas_xhp_attribute_rust::HhasXhpAttribute` as built (and then
discarded) by the source file. -/
structure HhasXhpAttribute where
  type_ : Option Hint
  class_var : ClassVar
  tag : Option XhpAttrTag
  maybe_enum : Option (Pos × Bool × List Expr)

/-- `hhas_class_rust::HhasClassFlags`: the descriptor's flag bitset,
modelled as named booleans (one per bitflag the source sets). -/
structure HhasClassFlags where
  is_final : Bool := false
  is_sealed : Bool := false
  is_abstract : Bool := false
  is_interface : Bool := false
  is_trait : Bool := false
  is_xhp : Bool := false
  is_const : Bool := false
  no_dynamic_props : Bool := false
  needs_no_reifiedinit : Bool := false
deriving DecidableEq

/-- `hhas_class_rust::HhasClass`: the output class descriptor. -/
structure HhasClass where
  attributes : List HhasAttribute
  base : Option ClassType
  implements : List ClassType
  name : ClassType
  span : Span
  flags : HhasClassFlags
  doc_comment : Option String
  uses : List String
  use_aliases : List (Option ClassType × ClassType × Option ClassType × List UseAsVisibility)
  use_precedences : List (ClassType × ClassType × List ClassType)
  method_trait_resolutions : List (MethodRedeclaration × ClassType)
  methods : List HhasMethod
  enum_type : Option TypeInfo
  hoisted : HoistKind
  upper_bounds : List UpperBound
  properties : List HhasProperty
  requirements : List (ClassType × TraitReqKind)
  type_constants : List HhasTypeConstant

/-- Arguments record passed to the property-lowering collaborator
(`emit_property::FromAstArgs`). -/
structure FromAstArgs where
  user_attributes : List UserAttribute
  id : Sid
  initial_value : Option Expr
  typehint : Option Hint
  doc_comment : Option String
  visibility : Visibility
  is_static : Bool
  is_abstract : Bool

/-- The external collaborator functions `emit_class.rs` invokes, bundled
with the ambient compiler-options context (the `Emitter`).  None of these
is implemented in the source file; each field carries exactly the
arguments the source passes at its call site. -/
structure Collab where
  enforceGenericUb : Bool
  emitAttrFromAsts : NamespaceEnv → List UserAttribute → Except Error (List HhasAttribute)
  addReifiedAttribute : List Tparam → Option HhasAttribute
  hintToClass : Hint → ClassType
  fmtHint : List String → Bool → Hint → Except Error String
  primToString : Tprim → String
  hintToTypeConstant : List String → List (String × Int) → Hint → Bool → Bool →
    Except Error TypedValue
  emitPropertyFromAst : Class_ → NamespaceEnv → List String → Bool → FromAstArgs →
    Except Error HhasProperty
  emitMethodFromAsts : Class_ → List Method_ → Except Error (List HhasMethod)
  emitGenericsUpperBounds : List Tparam → Bool → List UpperBound
  fromAstName : String → ClassType

/-- Rust `Iterator::collect::<Result<Vec<_>, _>>` over a mapped list:
collects the successes in order, stopping at the first error. -/
def collectResults (f : α → Except Error β) : List α → Except Error (List β)
  | [] => Except.ok []
  | x :: xs => do
    let y ← f x
    let ys ← collectResults f xs
    pure (y :: ys)

/-- `from_extends` (emit_class.rs:29-35). -/
def from_extends (co : Collab) (is_enum : Bool) (extends_ : List Hint) : Option ClassType :=
  if is_enum then
    some (fromRawString "HH\\BuiltinEnum")
  else
    extends_.head?.map (fun x => co.hintToClass x)

/-- `from_implements` (emit_class.rs:37-42). -/
def from_implements (co : Collab) (implements : List Hint) : List ClassType :=
  implements.map (fun x => co.hintToClass x)

/-- `from_type_constant` (emit_class.rs:44-70). -/
def from_type_constant (co : Collab) (tc : ClassTypeconst) : Except Error HhasTypeConstant := do
  let name := tc.name.name
  let initializer ←
    match tc.abstract_, tc.type_ with
    | TypeconstAbstractKind.TCAbstract none, _ => pure none
    | TypeconstAbstractKind.TCPartiallyAbstract, none => pure none
    | TypeconstAbstractKind.TCConcrete, none => pure none
    | TypeconstAbstractKind.TCAbstract (some init), _ =>
      Except.map some (co.hintToTypeConstant [] [] init false false)
    | TypeconstAbstractKind.TCPartiallyAbstract, some init =>
      Except.map some (co.hintToTypeConstant [] [] init false false)
    | TypeconstAbstractKind.TCConcrete, some init =>
      Except.map some (co.hintToTypeConstant [] [] init false false)
  pure { name := name, initializer := initializer }

/-- `from_class_elt_classvars` (emit_class.rs:72-113). -/
def from_class_elt_classvars (co : Collab) (namespace_ : NamespaceEnv) (ast_class : Class_)
    (class_is_const : Bool) (tparams : List String) : Except Error (List HhasProperty) :=
  collectResults
    (fun cv =>
      let hint := if cv.is_promoted_variadic then none else cv.type_
      co.emitPropertyFromAst ast_class namespace_ tparams class_is_const
        { user_attributes := cv.user_attributes
          id := cv.id
          initial_value := cv.expr
          typehint := hint
          doc_comment := cv.doc_comment
          visibility := cv.visibility
          is_static := cv.is_static
          is_abstract := cv.abstract_ })
    ast_class.vars

/-- `from_class_elt_requirements` (emit_class.rs:115-130). -/
def from_class_elt_requirements (co : Collab) (class_ : Class_) :
    List (ClassType × TraitReqKind) :=
  class_.reqs.map (fun hb =>
    let kind := if hb.2 then TraitReqKind.MustExtend else TraitReqKind.MustImplement
    (co.hintToClass hb.1, kind))

/-- `from_class_elt_typeconsts` (emit_class.rs:132-141). -/
def from_class_elt_typeconsts (co : Collab) (class_ : Class_) :
    Except Error (List HhasTypeConstant) :=
  collectResults (fun x => from_type_constant co x) class_.typeconsts

/-- `from_enum_type` (emit_class.rs:143-154). -/
def from_enum_type (co : Collab) (opt : Option Enum_) : Except Error (Option TypeInfo) :=
  match opt with
  | none => Except.ok none
  | some e =>
    Except.map
      (fun s =>
        some (TypeInfo.make (some s) (Constraint.make none [ConstraintFlag.ExtendedHint])))
      (co.fmtHint [] true e.base)

/-- The trait-use collection loop of `emit_class` (emit_class.rs:183-199):
a `filter_map` over the use hints collected into a `Result` — named-type
applications yield their name (or, for an interface, a parse fatal at the
name's position); every other hint shape is skipped. -/
def emitUses (is_interface : Bool) : List Hint → Except Error (List String)
  | [] => Except.ok []
  | u :: rest =>
    match u with
    | Hint.Happly _ id _ =>
      if is_interface then
        Except.error (raiseFatalParse id.pos "Interfaces cannot use traits")
      else
        Except.map (fun us => id.name :: us) (emitUses is_interface rest)
    | _ => emitUses is_interface rest

/-- Rust `str::starts_with`, modelled on the string's character list (for
valid UTF-8 the byte-prefix and character-prefix readings coincide). -/
def strStartsWith (s p : String) : Bool :=
  List.isPrefixOf p.data s.data

/-- Rust ASCII lowercasing of one character (`u8::to_ascii_lowercase`). -/
def asciiLower (c : Char) : Char :=
  if 'A' ≤ c ∧ c ≤ 'Z' then Char.ofNat (c.toNat + 32) else c

/-- Rust `str::eq_ignore_ascii_case`. -/
def eqIgnoreAsciiCase (s t : String) : Bool :=
  s.data.map asciiLower == t.data.map asciiLower

/-- `string_of_trait`, the trait-hint stringification closure of
`emit_class` (emit_class.rs:222-245). -/
def string_of_trait (co : Collab) (trait_ : Hint) : Except Error String :=
  match trait_ with
  | Hint.Happly _ id _ => Except.ok id.name
  | Hint.Hprim _ p => Except.ok (co.primToString p)
  -- Source message reads "I'm convinced that ..."; the apostrophe is
  -- elided here.
  | Hint.Hany _ =>
    Except.error (Error.Unrecoverable
      "Im convinced that this should be an error caught in naming")
  | Hint.Herr _ =>
    Except.error (Error.Unrecoverable
      "Im convinced that this should be an error caught in naming")
  | Hint.Hmixed _ => Except.ok typehints.MIXED
  | Hint.Hnonnull _ => Except.ok typehints.NONNULL
  | Hint.Habstr _ s => Except.ok s
  | Hint.Harray _ _ _ => Except.ok typehints.ARRAY
  | Hint.Hdarray _ _ _ => Except.ok typehints.DARRAY
  | Hint.Hvarray _ _ => Except.ok typehints.VARRAY
  | Hint.HvarrayOrDarray _ _ _ => Except.ok typehints.VARRAY_OR_DARRAY
  | Hint.Hthis _ => Except.ok typehints.THIS
  | Hint.Hdynamic _ => Except.ok typehints.DYNAMIC
  | _ => Except.error (Error.Unrecoverable "TODO Fail gracefully here")

/-- The method-redeclaration resolution loop of `emit_class`
(emit_class.rs:246-250): pairs each redeclaration with its stringified
trait hint, collected into a `Result`. -/
def methodTraitResolutionsOf (co : Collab) (mtrs : List MethodRedeclaration) :
    Except Error (List (MethodRedeclaration × ClassType)) :=
  collectResults
    (fun mtr => Except.map (fun s => (mtr, s)) (string_of_trait co mtr.trait_)) mtrs

/-- The enum-type stage of `emit_class` (emit_class.rs:252-256). -/
def enumTypeOf (co : Collab) (ast_class : Class_) : Except Error (Option TypeInfo) :=
  if ast_class.kind == ClassKind.Cenum then
    from_enum_type co ast_class.enum_
  else
    Except.ok none

/-- `emit_class` (emit_class.rs:156-358): lowers one class declaration
into a class descriptor or fails with the first error. -/
def emit_class (co : Collab) (ast_class : Class_) (hoisted : HoistKind) :
    Except Error HhasClass := do
  let namespace_ := ast_class.namespace_
  let is_closure_class := strStartsWith ast_class.name.name "Closure$"
  let attributes ← co.emitAttrFromAsts namespace_ ast_class.user_attributes
  let attributes :=
    if !is_closure_class then
      attributes ++ (co.addReifiedAttribute ast_class.tparams.list).toList
    else
      attributes
  let is_const := hasConst attributes
  -- In the future, class_no_dynamic_props is intended to be set
  -- independently from class_is_const; for now class_is_const is the only
  -- thing that turns it on (comment preserved from the source).
  let no_dynamic_props := is_const
  let name := co.fromAstName ast_class.name.name
  let is_trait := ast_class.kind == ClassKind.Ctrait
  let is_interface := ast_class.kind == ClassKind.Cinterface
  let uses ← emitUses is_interface ast_class.uses
  let use_aliases := ast_class.use_as_alias.map (fun ua =>
    let id1 := ua.ido1.map (fun x => co.fromAstName x.name)
    let id2 := ua.ido2.map (fun x => fromRawString x.name)
    (id1, fromRawString ua.id.str, id2, ua.vis))
  let use_precedences := ast_class.insteadof_alias.map (fun ia =>
    let id1 := co.fromAstName ia.id1.name
    let ids := ia.ids.map (fun x => co.fromAstName x.name)
    (id1, fromRawString ia.id2.str, ids))
  let method_trait_resolutions ← methodTraitResolutionsOf co ast_class.method_redeclarations
  let enum_type ← enumTypeOf co ast_class
  let _xhp_attributes := ast_class.xhp_attrs.map (fun xa =>
    ({ type_ := xa.type_
       class_var := xa.class_var
       tag := xa.tag
       maybe_enum := xa.maybe_enum } : HhasXhpAttribute))
  let _xhp_children := ast_class.xhp_children.head?.map (fun psl => (psl.1, [psl.2]))
  let _xhp_categories := ast_class.xhp_category.map (fun pc => (pc.1, pc.2.map (fun x => x.str)))
  let is_abstract := ast_class.kind == ClassKind.Cabstract
  let is_final := ast_class.final_ || is_trait || enum_type.isSome
  let is_sealed := hasSealed attributes
  let tparams := ast_class.tparams.list.map (fun x => x.name.name)
  let base :=
    if is_interface then
      none
    else
      from_extends co enum_type.isSome ast_class.extends_
  if (base.map (fun cls =>
        eqIgnoreAsciiCase (toRawString cls) "closure" && !is_closure_class)).getD false then
    throw (raiseFatalRuntime ast_class.name.pos "Class cannot extend Closure")
  let implements := if is_interface then ast_class.extends_ else ast_class.implements
  let implements := from_implements co implements
  let span := posToSpan ast_class.span
  let properties ← from_class_elt_classvars co namespace_ ast_class is_const tparams
  let requirements := from_class_elt_requirements co ast_class
  let type_constants ← from_class_elt_typeconsts co ast_class
  let upper_bounds :=
    if co.enforceGenericUb then
      co.emitGenericsUpperBounds ast_class.tparams.list false
    else
      []
  let methods ← co.emitMethodFromAsts ast_class ast_class.methods
  let needs_no_reifiedinit := false
  let doc_comment := ast_class.doc_comment
  let is_xhp := ast_class.is_xhp || ast_class.has_xhp_keyword
  let flags : HhasClassFlags :=
    { is_final := is_final
      is_sealed := is_sealed
      is_abstract := is_abstract
      is_interface := is_interface
      is_trait := is_trait
      is_xhp := is_xhp
      is_const := is_const
      no_dynamic_props := no_dynamic_props
      needs_no_reifiedinit := needs_no_reifiedinit }
  pure
    { attributes := attributes
      base := base
      implements := implements
      name := name
      span := span
      flags := flags
      doc_comment := doc_comment
      uses := uses
      use_aliases := use_aliases
      use_precedences := use_precedences
      method_trait_resolutions := method_trait_resolutions
      methods := methods
      enum_type := enum_type
      hoisted := hoisted
      upper_bounds := upper_bounds
      properties := properties
      requirements := requirements
      type_constants := type_constants }

/-- A concrete instantiation of the collaborator record used to evaluate
`emit_class` on concrete inputs: attribute and method lowering return
their trivial values, `hintToClass` reads off the applied name, and name
elaboration is the identity. -/
def co0 : Collab :=
  { enforceGenericUb := false
    emitAttrFromAsts := fun _ _ => Except.ok []
    addReifiedAttribute := fun _ => none
    hintToClass := fun h =>
      match h with
      | Hint.Happly _ id _ => id.name
      | _ => ""
    fmtHint := fun _ _ _ => Except.ok "HH\\int"
    primToString := fun _ => "int"
    hintToTypeConstant := fun _ _ _ _ _ => Except.ok { repr := 0 }
    emitPropertyFromAst := fun _ _ _ _ _ => Except.ok { repr := 0 }
    emitMethodFromAsts := fun _ _ => Except.ok []
    emitGenericsUpperBounds := fun _ _ => []
    fromAstName := fun s => s }

/-- A minimal concrete class declaration, used as the template for the
concrete inputs of the witnesses and counterexamples. -/
def baseClass : Class_ :=
  { span := 0
    final_ := false
    is_xhp := false
    has_xhp_keyword := false
    kind := ClassKind.Cnormal
    name := { pos := 1, name := "Foo" }
    tparams := { list := [] }
    extends_ := []
    uses := []
    use_as_alias := []
    insteadof_alias := []
    method_redeclarations := []
    xhp_attrs := []
    xhp_category := none
    reqs := []
    implements := []
    xhp_children := []
    consts' := []
    typeconsts := []
    vars := []
    methods := []
    user_attributes := []
    namespace_ := { name := none }
    enum_ := none
    doc_comment := none }

/-- Extracts the descriptor of a successful lowering. -/
def descriptorOf (e : Except Error HhasClass) : Option HhasClass :=
  match e with
  | Except.ok d => some d
  | Except.error _ => none

/-- Concrete input: an interface declaration whose only trait-use entry is
a primitive hint (not a named-type application). -/
def c1cex : Class_ :=
  { baseClass with kind := ClassKind.Cinterface, uses := [Hint.Hprim 5 Tprim.Tint] }

/-- Concrete input: an interface declaration with one named-type trait-use
entry. -/
def c1w : Class_ :=
  { baseClass with
      kind := ClassKind.Cinterface
      uses := [Hint.Happly 7 { pos := 8, name := "T" } []] }

/-- Concrete input: an enum declaration with no enum base hint. -/
def c2cex : Class_ := { baseClass with kind := ClassKind.Cenum }

/-- Concrete input: an enum declaration carrying an enum base hint. -/
def c2w : Class_ :=
  { baseClass with
      kind := ClassKind.Cenum
      enum_ := some { base := Hint.Hprim 9 Tprim.Tint, constraint := none } }

/-- Concrete input: a non-final enum declaration with no enum base hint. -/
def c3cex : Class_ := { baseClass with kind := ClassKind.Cenum, final_ := false }

/-- Concrete input: a non-final trait declaration. -/
def c3w : Class_ := { baseClass with kind := ClassKind.Ctrait }

/-- Concrete input: an ordinary class extending the closure base. -/
def c4w : Class_ :=
  { baseClass with extends_ := [Hint.Happly 3 { pos := 4, name := "Closure" } []] }

/-- Concrete input: an interface declaration extending another
interface. -/
def c5w : Class_ :=
  { baseClass with
      kind := ClassKind.Cinterface
      extends_ := [Hint.Happly 10 { pos := 11, name := "I1" } []] }

/-- Concrete input: a class redeclaring a method from the bottom-type
hint. -/
def c7w : Class_ :=
  { baseClass with
      method_redeclarations :=
        [{ name := { pos := 12, name := "m" }
           trait_ := Hint.Hany 13
           method := { pos := 14, str := "m" } }] }

/-- Concrete input: a concrete type constant with an initializer hint. -/
def tc8w : ClassTypeconst :=
  { abstract_ := TypeconstAbstractKind.TCConcrete
    name := { pos := 15, name := "TC" }
    type_ := some (Hint.Hprim 16 Tprim.Tint) }

/-- Concrete markup-component metadata used to vary a declaration. -/
def xc9 : List (Pos × XhpChild) := [(20, XhpChild.ChildName { pos := 21, name := "x" })]

/-- Concrete markup-category metadata used to vary a declaration. -/
def xcat9 : Option (Pos × List PString) := some (22, [{ pos := 23, str := "cat" }])

/-- Concrete input: a compiler-synthesized closure class extending the
closure base. -/
def c10w : Class_ :=
  { baseClass with
      name := { pos := 1, name := "Closure$foo" }
      extends_ := [Hint.Happly 3 { pos := 4, name := "Closure" } []] }

/-- `oxidized::aast::Def`, restricted to the class alternative the driver
filters for; the other alternatives are collapsed into one constructor. -/
inductive Def where
  | Class (cd : Class_)
  | OtherDef (repr : Nat)

/-- `emit_classes_from_program` (emit_class.rs:360-378). -/
def emit_classes_from_program (co : Collab) (tast : List Def) :
    Except Error (List HhasClass) :=
  collectResults (fun cd => emit_class co cd HoistKind.TopLevel)
    (tast.filterMap (fun x =>
      match x with
      | Def.Class cd => some cd
      | Def.OtherDef _ => none))

/-- The attribute-assembly step of `emit_class` (emit_class.rs:167-172),
as a function of the attribute collaborator's output: the synthesized
reified-generics attribute is appended unless the class is a
compiler-synthesized closure class. -/
def assembledAttributes (co : Collab) (c : Class_) (attrs0 : List HhasAttribute) :
    List HhasAttribute :=
  if !(strStartsWith c.name.name "Closure$") then
    attrs0 ++ (co.addReifiedAttribute c.tparams.list).toList
  else
    attrs0

/-- The guard of the closure-base-extension check of `emit_class`
(emit_class.rs:293-297), as a function of the resolved enum type: the
resolved base exists, its raw name matches "closure" case-insensitively,
and the class is not itself a compiler-synthesized closure class. -/
def closureExtendsBlocked (co : Collab) (c : Class_) (et : Option TypeInfo) : Bool :=
  ((if c.kind == ClassKind.Cinterface then none
    else from_extends co et.isSome c.extends_).map (fun cls =>
      eqIgnoreAsciiCase (toRawString cls) "closure"
        && !(strStartsWith c.name.name "Closure$"))).getD false

/-- The descriptor record `emit_class` assembles (emit_class.rs:338-357),
as a function of the outputs of its fallible stages. -/
def emittedDescriptor (co : Collab) (c : Class_) (hoisted : HoistKind)
    (attrs0 : List HhasAttribute) (us : List String)
    (mtrs : List (MethodRedeclaration × ClassType)) (et : Option TypeInfo)
    (props : List HhasProperty) (tcs : List HhasTypeConstant) (ms : List HhasMethod) :
    HhasClass :=
  let attributes := assembledAttributes co c attrs0
  let is_const := hasConst attributes
  let is_trait := c.kind == ClassKind.Ctrait
  let is_interface := c.kind == ClassKind.Cinterface
  { attributes := attributes
    base := if is_interface then none else from_extends co et.isSome c.extends_
    implements := from_implements co (if is_interface then c.extends_ else c.implements)
    name := co.fromAstName c.name.name
    span := posToSpan c.span
    flags :=
      { is_final := c.final_ || is_trait || et.isSome
        is_sealed := hasSealed attributes
        is_abstract := c.kind == ClassKind.Cabstract
        is_interface := is_interface
        is_trait := is_trait
        is_xhp := c.is_xhp || c.has_xhp_keyword
        is_const := is_const
        no_dynamic_props := is_const
        needs_no_reifiedinit := false }
    doc_comment := c.doc_comment
    uses := us
    use_aliases := c.use_as_alias.map (fun ua =>
      (ua.ido1.map (fun x => co.fromAstName x.name), fromRawString ua.id.str,
        ua.ido2.map (fun x => fromRawString x.name), ua.vis))
    use_precedences := c.insteadof_alias.map (fun ia =>
      (co.fromAstName ia.id1.name, fromRawString ia.id2.str,
        ia.ids.map (fun x => co.fromAstName x.name)))
    method_trait_resolutions := mtrs
    methods := ms
    enum_type := et
    hoisted := hoisted
    upper_bounds :=
      if co.enforceGenericUb then co.emitGenericsUpperBounds c.tparams.list false else []
    properties := props
    requirements := from_class_elt_requirements co c
    type_constants := tcs }

/-- Discriminates the hint shape the trait-use collection loop collects: a
simple named-type application. -/
def isHapplyHint : Hint → Bool
  | Hint.Happly _ _ _ => true
  | _ => false

/-- Discriminates the hint shapes that fall into the catch-all arm of
`string_of_trait` (every shape other than the thirteen the source lists
explicitly). -/
def hintOtherShape : Hint → Bool
  | Hint.Hoption _ _ => true
  | Hint.Hlike _ _ => true
  | Hint.Hfun _ _ _ => true
  | Hint.Htuple _ _ => true
  | Hint.Hshape _ => true
  | Hint.Haccess _ _ _ => true
  | Hint.Hsoft _ _ => true
  | Hint.Hnothing _ => true
  | Hint.Hunion _ _ => true
  | Hint.Hintersection _ _ => true
  | _ => false

/-- Concrete type info produced by lowering the enum base hint of `c2w`
under `co0`. -/
def ti9 : TypeInfo :=
  TypeInfo.make (some "HH\\int") (Constraint.make none [ConstraintFlag.ExtendedHint])

/-- The descriptor `emit_class co0 c2w` produces. -/
def d2w : HhasClass :=
  emittedDescriptor co0 c2w HoistKind.TopLevel [] [] [] (some ti9) [] [] []

/-- The descriptor `emit_class co0 c3w` produces. -/
def d3w : HhasClass := emittedDescriptor co0 c3w HoistKind.TopLevel [] [] [] none [] [] []

/-- The descriptor `emit_class co0 c5w` produces. -/
def d5w : HhasClass := emittedDescriptor co0 c5w HoistKind.TopLevel [] [] [] none [] [] []

/-- The descriptor `emit_class co0 baseClass` produces. -/
def d6w : HhasClass :=
  emittedDescriptor co0 baseClass HoistKind.TopLevel [] [] [] none [] [] []

/-- The type constant `from_type_constant co0 tc8w` produces. -/
def out8w : HhasTypeConstant := { name := "TC", initializer := some { repr := 0 } }

/-- Constructive characterization of a successful lowering: when every
fallible stage succeeds and the closure-base check does not fire,
`emit_class` returns exactly the assembled descriptor. -/
theorem emit_class_construct (co : Collab) (c : Class_) (hoisted : HoistKind)
    (attrs0 : List HhasAttribute) (us : List String)
    (mtrs : List (MethodRedeclaration × ClassType)) (et : Option TypeInfo)
    (props : List HhasProperty) (tcs : List HhasTypeConstant) (ms : List HhasMethod)
    (hA : co.emitAttrFromAsts c.namespace_ c.user_attributes = Except.ok attrs0)
    (hU : emitUses (c.kind == ClassKind.Cinterface) c.uses = Except.ok us)
    (hM : methodTraitResolutionsOf co c.method_redeclarations = Except.ok mtrs)
    (hE : enumTypeOf co c = Except.ok et)
    (hB : closureExtendsBlocked co c et = false)
    (hP : from_class_elt_classvars co c.namespace_ c
      (hasConst (assembledAttributes co c attrs0))
      (c.tparams.list.map (fun x => x.name.name)) = Except.ok props)
    (hT : from_class_elt_typeconsts co c = Except.ok tcs)
    (hMs : co.emitMethodFromAsts c c.methods = Except.ok ms) :
    emit_class co c hoisted =
      Except.ok (emittedDescriptor co c hoisted attrs0 us mtrs et props tcs ms) := by
  simp only [closureExtendsBlocked] at hB
  simp only [assembledAttributes] at hP
  simp only [emit_class, bind, Except.bind, pure, Except.pure, hA, hU, hM, hE, hB,
    Bool.false_eq_true, if_false, hP, hT, hMs, emittedDescriptor, assembledAttributes]

/-- Error propagation: a failure of the trait-use collection stage is the
result of `emit_class`. -/
theorem emit_class_error_at_uses (co : Collab) (c : Class_) (hoisted : HoistKind)
    (attrs0 : List HhasAttribute) (e : Error)
    (hA : co.emitAttrFromAsts c.namespace_ c.user_attributes = Except.ok attrs0)
    (hU : emitUses (c.kind == ClassKind.Cinterface) c.uses = Except.error e) :
    emit_class co c hoisted = Except.error e := by
  simp only [emit_class, bind, Except.bind, hA, hU]

/-- Error propagation: a failure of the method-redeclaration resolution
stage is the result of `emit_class`. -/
theorem emit_class_error_at_mtrs (co : Collab) (c : Class_) (hoisted : HoistKind)
    (attrs0 : List HhasAttribute) (us : List String) (e : Error)
    (hA : co.emitAttrFromAsts c.namespace_ c.user_attributes = Except.ok attrs0)
    (hU : emitUses (c.kind == ClassKind.Cinterface) c.uses = Except.ok us)
    (hM : methodTraitResolutionsOf co c.method_redeclarations = Except.error e) :
    emit_class co c hoisted = Except.error e := by
  simp only [emit_class, bind, Except.bind, hA, hU, hM]

/-- When the closure-base-extension guard fires, `emit_class` returns the
runtime fatal positioned at the class name. -/
theorem emit_class_error_closure (co : Collab) (c : Class_) (hoisted : HoistKind)
    (attrs0 : List HhasAttribute) (us : List String)
    (mtrs : List (MethodRedeclaration × ClassType)) (et : Option TypeInfo)
    (hA : co.emitAttrFromAsts c.namespace_ c.user_attributes = Except.ok attrs0)
    (hU : emitUses (c.kind == ClassKind.Cinterface) c.uses = Except.ok us)
    (hM : methodTraitResolutionsOf co c.method_redeclarations = Except.ok mtrs)
    (hE : enumTypeOf co c = Except.ok et)
    (hB : closureExtendsBlocked co c et = true) :
    emit_class co c hoisted =
      Except.error (raiseFatalRuntime c.name.pos "Class cannot extend Closure") := by
  simp only [closureExtendsBlocked] at hB
  simp only [emit_class, bind, Except.bind, hA, hU, hM, hE, hB, if_true, throw, throwThe,
    MonadExceptOf.throw]

/-- Full inversion of a successful lowering: `emit_class` returns a
descriptor exactly when every fallible stage succeeds and the closure-base
check does not fire, and the descriptor is the assembled record. -/
theorem emit_class_ok_iff (co : Collab) (c : Class_) (hoisted : HoistKind) (d : HhasClass) :
    emit_class co c hoisted = Except.ok d ↔
    ∃ attrs0 us mtrs et props tcs ms,
      co.emitAttrFromAsts c.namespace_ c.user_attributes = Except.ok attrs0 ∧
      emitUses (c.kind == ClassKind.Cinterface) c.uses = Except.ok us ∧
      methodTraitResolutionsOf co c.method_redeclarations = Except.ok mtrs ∧
      enumTypeOf co c = Except.ok et ∧
      closureExtendsBlocked co c et = false ∧
      from_class_elt_classvars co c.namespace_ c (hasConst (assembledAttributes co c attrs0))
        (c.tparams.list.map (fun x => x.name.name)) = Except.ok props ∧
      from_class_elt_typeconsts co c = Except.ok tcs ∧
      co.emitMethodFromAsts c c.methods = Except.ok ms ∧
      d = emittedDescriptor co c hoisted attrs0 us mtrs et props tcs ms := by
  constructor
  · intro h
    cases hA : co.emitAttrFromAsts c.namespace_ c.user_attributes with
    | error e => simp [emit_class, bind, Except.bind, hA] at h
    | ok attrs0 =>
      cases hU : emitUses (c.kind == ClassKind.Cinterface) c.uses with
      | error e => simp [emit_class, bind, Except.bind, hA, hU] at h
      | ok us =>
        cases hM : methodTraitResolutionsOf co c.method_redeclarations with
        | error e => simp [emit_class, bind, Except.bind, hA, hU, hM] at h
        | ok mtrs =>
          cases hE : enumTypeOf co c with
          | error e => simp [emit_class, bind, Except.bind, hA, hU, hM, hE] at h
          | ok et =>
            cases hB : closureExtendsBlocked co c et with
            | true =>
              rw [emit_class_error_closure co c hoisted attrs0 us mtrs et hA hU hM hE hB] at h
              exact Except.noConfusion h
            | false =>
              cases hP : from_class_elt_classvars co c.namespace_ c
                  (hasConst (assembledAttributes co c attrs0))
                  (c.tparams.list.map (fun x => x.name.name)) with
              | error e =>
                have hB' := hB
                simp only [closureExtendsBlocked] at hB'
                have hP' := hP
                simp only [assembledAttributes] at hP'
                simp only [emit_class, bind, Except.bind, pure, Except.pure, hA, hU, hM, hE,
                  hB', Bool.false_eq_true, if_false, hP'] at h
                exact Except.noConfusion h
              | ok props =>
                cases hT : from_class_elt_typeconsts co c with
                | error e =>
                  have hB' := hB
                  simp only [closureExtendsBlocked] at hB'
                  have hP' := hP
                  simp only [assembledAttributes] at hP'
                  simp only [emit_class, bind, Except.bind, pure, Except.pure, hA, hU, hM, hE,
                    hB', Bool.false_eq_true, if_false, hP', hT] at h
                  exact Except.noConfusion h
                | ok tcs =>
                  cases hMs : co.emitMethodFromAsts c c.methods with
                  | error e =>
                    have hB' := hB
                    simp only [closureExtendsBlocked] at hB'
                    have hP' := hP
                    simp only [assembledAttributes] at hP'
                    simp only [emit_class, bind, Except.bind, pure, Except.pure, hA, hU, hM,
                      hE, hB', Bool.false_eq_true, if_false, hP', hT, hMs] at h
                    exact Except.noConfusion h
                  | ok ms =>
                    have hc := emit_class_construct co c hoisted attrs0 us mtrs et props tcs ms
                      hA hU hM hE hB hP hT hMs
                    rw [hc] at h
                    exact ⟨attrs0, us, mtrs, et, props, tcs, ms, rfl, rfl, rfl, rfl, hB, hP,
                      rfl, rfl, (Except.ok.inj h).symm⟩
  · rintro ⟨attrs0, us, mtrs, et, props, tcs, ms, hA, hU, hM, hE, hB, hP, hT, hMs, rfl⟩
    exact emit_class_construct co c hoisted attrs0 us mtrs et props tcs ms hA hU hM hE hB hP
      hT hMs

/-- For an enum-kind class, a successful enum-type stage yields a type
info exactly when the declaration carries an enum base hint. -/
theorem enumTypeOf_isSome_eq (co : Collab) (c : Class_) (et : Option TypeInfo)
    (hk : c.kind = ClassKind.Cenum) (hE : enumTypeOf co c = Except.ok et) :
    et.isSome = c.enum_.isSome := by
  cases henum : c.enum_ with
  | none =>
    simp only [enumTypeOf, hk, henum, from_enum_type] at hE
    simp at hE
    subst hE
    rfl
  | some e =>
    simp only [enumTypeOf, hk, henum, from_enum_type] at hE
    cases hf : co.fmtHint [] true e.base with
    | error er => simp [hf, Except.map] at hE
    | ok s =>
      simp [hf, Except.map] at hE
      subst hE
      rfl

/-- For a non-enum class the enum-type stage always succeeds with no type
info. -/
theorem enumTypeOf_not_enum (co : Collab) (c : Class_)
    (hk : ¬ c.kind = ClassKind.Cenum) : enumTypeOf co c = Except.ok none := by
  unfold enumTypeOf
  simp [hk]

/-- For a compiler-synthesized closure class the closure-base-extension
guard never fires, for any resolved base. -/
theorem closureExtendsBlocked_closure_class (co : Collab) (c : Class_) (et : Option TypeInfo)
    (hcl : strStartsWith c.name.name "Closure$" = true) :
    closureExtendsBlocked co c et = false := by
  unfold closureExtendsBlocked
  cases (if c.kind == ClassKind.Cinterface then none
      else from_extends co et.isSome c.extends_) with
  | none => rfl
  | some cls => simp [hcl]

/-- For a compiler-synthesized closure class the attribute list is the
attribute collaborator's output unchanged (no reified-generics attribute
is appended). -/
theorem assembledAttributes_closure_class (co : Collab) (c : Class_)
    (attrs0 : List HhasAttribute) (hcl : strStartsWith c.name.name "Closure$" = true) :
    assembledAttributes co c attrs0 = attrs0 := by
  simp [assembledAttributes, hcl]

/-- The trait-use collection of an interface fails with the parse fatal at
the first named-type entry, skipping any earlier entries of other
shapes. -/
theorem emitUses_interface_fatal (hp : Pos) (hid : Sid) (args rest : List Hint)
    (pre : List Hint) (hpre : ∀ u ∈ pre, isHapplyHint u = false) :
    emitUses true (pre ++ Hint.Happly hp hid args :: rest) =
      Except.error (raiseFatalParse hid.pos "Interfaces cannot use traits") := by
  induction pre with
  | nil => simp [emitUses]
  | cons u pre ih =>
    have hu := hpre u (List.mem_cons_self u pre)
    have ih' := ih (fun v hv => hpre v (List.mem_cons_of_mem u hv))
    cases u <;> simp_all [emitUses, isHapplyHint]

/-- C6: in every successfully produced descriptor, the no_dynamic_props
flag equals the is_const flag, and is_const holds iff a "const" attribute
is present in the assembled attribute list (the attribute collaborator's
output plus, for non-closure classes, the synthesized reified-generics
attribute), which is the descriptor's attribute list. -/
theorem C6_no_dynamic_props_is_const (co : Collab) (c : Class_) (hoisted : HoistKind)
    (d : HhasClass) (h : emit_class co c hoisted = Except.ok d) :
    d.flags.no_dynamic_props = d.flags.is_const ∧
    d.flags.is_const = hasConst d.attributes ∧
    (∃ attrs0, co.emitAttrFromAsts c.namespace_ c.user_attributes = Except.ok attrs0 ∧
      d.attributes = assembledAttributes co c attrs0) := by
  rcases (emit_class_ok_iff co c hoisted d).1 h with
    ⟨attrs0, us, mtrs, et, props, tcs, ms, hA, -, -, -, -, -, -, -, rfl⟩
  exact ⟨rfl, rfl, attrs0, hA, rfl⟩

/-- C5: for an interface declaration the descriptor's base is None and its
implements list is the declaration's extends list converted by the
hint-to-class collaborator; for every non-interface declaration the
implements list is the declaration's own implements list, converted the
same way. -/
theorem C5_interface_base_and_implements (co : Collab) (c : Class_) (hoisted : HoistKind)
    (d : HhasClass) (h : emit_class co c hoisted = Except.ok d) :
    (c.kind = ClassKind.Cinterface →
      d.base = none ∧ d.implements = from_implements co c.extends_) ∧
    (c.kind ≠ ClassKind.Cinterface → d.implements = from_implements co c.implements) ∧
    (∀ l : List Hint, from_implements co l = l.map (fun x => co.hintToClass x)) := by
  rcases (emit_class_ok_iff co c hoisted d).1 h with
    ⟨attrs0, us, mtrs, et, props, tcs, ms, -, -, -, -, -, -, -, -, rfl⟩
  refine ⟨fun hk => ⟨?_, ?_⟩, fun hk => ?_, fun l => rfl⟩
  · simp [emittedDescriptor, hk]
  · simp [emittedDescriptor, hk]
  · simp [emittedDescriptor, beq_iff_eq, hk]

/-- C2 (amended): for an enum declaration the descriptor's enum_type is
Some iff the declaration carries an enum base hint; when the hint is
present the base is the fixed builtin enum base, and when it is absent the
base falls back to the first extends entry converted by the hint-to-class
collaborator. -/
theorem C2_enum_base_enum_type (co : Collab) (c : Class_) (hoisted : HoistKind)
    (d : HhasClass) (hk : c.kind = ClassKind.Cenum)
    (h : emit_class co c hoisted = Except.ok d) :
    d.enum_type.isSome = c.enum_.isSome ∧
    (c.enum_.isSome = true → d.base = some (fromRawString "HH\\BuiltinEnum")) ∧
    (c.enum_ = none → d.base = c.extends_.head?.map (fun x => co.hintToClass x)) := by
  rcases (emit_class_ok_iff co c hoisted d).1 h with
    ⟨attrs0, us, mtrs, et, props, tcs, ms, -, -, -, hE, -, -, -, -, rfl⟩
  have hs := enumTypeOf_isSome_eq co c et hk hE
  refine ⟨hs, fun hsome => ?_, fun hnone => ?_⟩
  · have het : et.isSome = true := by rw [hs, hsome]
    simp [emittedDescriptor, hk, het, from_extends]
  · have het : et.isSome = false := by rw [hs, hnone]; rfl
    simp [emittedDescriptor, hk, het, from_extends]

/-- C3 (amended): the descriptor's is_final flag is the disjunction of the
declared final flag, trait kind, and a resolved enum base; in particular
it is true for every trait declaration, and for every enum declaration
that carries an enum base hint, regardless of the declared final flag. -/
theorem C3_trait_enum_final (co : Collab) (c : Class_) (hoisted : HoistKind)
    (d : HhasClass) (h : emit_class co c hoisted = Except.ok d) :
    d.flags.is_final = (c.final_ || (c.kind == ClassKind.Ctrait) || d.enum_type.isSome) ∧
    (c.kind = ClassKind.Ctrait → d.flags.is_final = true) ∧
    (c.kind = ClassKind.Cenum → c.enum_.isSome = true → d.flags.is_final = true) := by
  rcases (emit_class_ok_iff co c hoisted d).1 h with
    ⟨attrs0, us, mtrs, et, props, tcs, ms, -, -, -, hE, -, -, -, -, rfl⟩
  refine ⟨rfl, fun hk => ?_, fun hk hsome => ?_⟩
  · simp [emittedDescriptor, hk]
  · have hs := enumTypeOf_isSome_eq co c et hk hE
    have het : et.isSome = true := by rw [hs, hsome]
    simp [emittedDescriptor, het]

/-- C4: a class whose resolved base name matches the closure base name
case-insensitively, and which is not itself a compiler-synthesized closure
class, fails with the runtime fatal positioned at the class name (given
that the earlier fallible stages succeed). -/
theorem C4_extend_closure_fatal (co : Collab) (c : Class_) (hoisted : HoistKind)
    (attrs0 : List HhasAttribute) (us : List String)
    (mtrs : List (MethodRedeclaration × ClassType)) (et : Option TypeInfo) (cls : ClassType)
    (hA : co.emitAttrFromAsts c.namespace_ c.user_attributes = Except.ok attrs0)
    (hU : emitUses (c.kind == ClassKind.Cinterface) c.uses = Except.ok us)
    (hM : methodTraitResolutionsOf co c.method_redeclarations = Except.ok mtrs)
    (hE : enumTypeOf co c = Except.ok et)
    (hBase : (if c.kind == ClassKind.Cinterface then none
      else from_extends co et.isSome c.extends_) = some cls)
    (hcls : eqIgnoreAsciiCase (toRawString cls) "closure" = true)
    (hname : strStartsWith c.name.name "Closure$" = false) :
    emit_class co c hoisted =
      Except.error (Error.IncludeTimeFatalException FatalOp.Runtime c.name.pos
        "Class cannot extend Closure") := by
  have hB : closureExtendsBlocked co c et = true := by
    unfold closureExtendsBlocked
    rw [hBase]
    simp [hcls, hname]
  exact emit_class_error_closure co c hoisted attrs0 us mtrs et hA hU hM hE hB

/-- C1 (amended): an interface whose trait-use list contains a named-type
application entry fails with the parse fatal at the first such entry's
name position, with message "Interfaces cannot use traits" (given that
attribute lowering succeeds); other hint shapes in the trait-use list are
skipped. -/
theorem C1_interface_use_trait_fatal (co : Collab) (c : Class_) (hoisted : HoistKind)
    (attrs0 : List HhasAttribute) (pre : List Hint) (hp : Pos) (hid : Sid)
    (args rest : List Hint)
    (hk : c.kind = ClassKind.Cinterface)
    (hA : co.emitAttrFromAsts c.namespace_ c.user_attributes = Except.ok attrs0)
    (hus : c.uses = pre ++ Hint.Happly hp hid args :: rest)
    (hpre : ∀ u ∈ pre, isHapplyHint u = false) :
    emit_class co c hoisted =
      Except.error (Error.IncludeTimeFatalException FatalOp.Parse hid.pos
        "Interfaces cannot use traits") := by
  have hU : emitUses (c.kind == ClassKind.Cinterface) c.uses =
      Except.error (raiseFatalParse hid.pos "Interfaces cannot use traits") := by
    rw [hus, hk]
    exact emitUses_interface_fatal hp hid args rest pre hpre
  exact emit_class_error_at_uses co c hoisted attrs0 _ hA hU

/-- C7: stringifying a method-redeclaration trait hint returns the name
for a named-type application, the primitive's canonical string for a
primitive hint, the canonical keyword strings for the
mixed/nonnull/abstract-type-parameter/array-family/this/dynamic shapes,
and an unrecoverable internal error for the any/error shapes and for every
other hint shape; such an error aborts the lowering of the class. -/
theorem C7_string_of_trait_table :
    (∀ (co : Collab) (p : Pos) (id : Sid) (args : List Hint),
      string_of_trait co (Hint.Happly p id args) = Except.ok id.name) ∧
    (∀ (co : Collab) (p : Pos) (pr : Tprim),
      string_of_trait co (Hint.Hprim p pr) = Except.ok (co.primToString pr)) ∧
    (∀ (co : Collab) (p : Pos),
      string_of_trait co (Hint.Hmixed p) = Except.ok typehints.MIXED ∧
      string_of_trait co (Hint.Hnonnull p) = Except.ok typehints.NONNULL ∧
      string_of_trait co (Hint.Hthis p) = Except.ok typehints.THIS ∧
      string_of_trait co (Hint.Hdynamic p) = Except.ok typehints.DYNAMIC) ∧
    (∀ (co : Collab) (p : Pos) (s : String),
      string_of_trait co (Hint.Habstr p s) = Except.ok s) ∧
    (∀ (co : Collab) (p : Pos) (h1 h2 : Option Hint),
      string_of_trait co (Hint.Harray p h1 h2) = Except.ok typehints.ARRAY) ∧
    (∀ (co : Collab) (p : Pos) (h1 h2 : Hint),
      string_of_trait co (Hint.Hdarray p h1 h2) = Except.ok typehints.DARRAY) ∧
    (∀ (co : Collab) (p : Pos) (h : Hint),
      string_of_trait co (Hint.Hvarray p h) = Except.ok typehints.VARRAY) ∧
    (∀ (co : Collab) (p : Pos) (h1 : Option Hint) (h2 : Hint),
      string_of_trait co (Hint.HvarrayOrDarray p h1 h2) =
        Except.ok typehints.VARRAY_OR_DARRAY) ∧
    (∀ (co : Collab) (p : Pos),
      (∃ msg, string_of_trait co (Hint.Hany p) = Except.error (Error.Unrecoverable msg)) ∧
      (∃ msg, string_of_trait co (Hint.Herr p) = Except.error (Error.Unrecoverable msg))) ∧
    (∀ (co : Collab) (h : Hint), hintOtherShape h = true →
      ∃ msg, string_of_trait co h = Except.error (Error.Unrecoverable msg)) ∧
    (∀ (co : Collab) (mtr : MethodRedeclaration) (mtrs : List MethodRedeclaration)
      (e : Error), string_of_trait co mtr.trait_ = Except.error e →
      methodTraitResolutionsOf co (mtr :: mtrs) = Except.error e) ∧
    (∀ (co : Collab) (c : Class_) (hoisted : HoistKind) (attrs0 : List HhasAttribute)
      (us : List String) (e : Error),
      co.emitAttrFromAsts c.namespace_ c.user_attributes = Except.ok attrs0 →
      emitUses (c.kind == ClassKind.Cinterface) c.uses = Except.ok us →
      methodTraitResolutionsOf co c.method_redeclarations = Except.error e →
      emit_class co c hoisted = Except.error e) := by
  refine ⟨fun co p id args => rfl, fun co p pr => rfl,
    fun co p => ⟨rfl, rfl, rfl, rfl⟩, fun co p s => rfl, fun co p h1 h2 => rfl,
    fun co p h1 h2 => rfl, fun co p h => rfl, fun co p h1 h2 => rfl,
    fun co p => ⟨⟨_, rfl⟩, ⟨_, rfl⟩⟩, fun co h hh => ?_, fun co mtr mtrs e hs => ?_,
    fun co c hoisted attrs0 us e hA hU hM =>
      emit_class_error_at_mtrs co c hoisted attrs0 us e hA hU hM⟩
  · cases h <;> first
      | exact ⟨_, rfl⟩
      | exact absurd hh (by simp [hintOtherShape])
  · simp [methodTraitResolutionsOf, collectResults, hs, Except.map, bind, Except.bind]

/-- C8: a type constant's initializer is None exactly when the constant is
abstract with no default, or partially-abstract or concrete with no
supplied hint; in every other case the initializer is the constant-value
collaborator's output on the hint, called with an empty type-parameter
list and empty generic-bound map. -/
theorem C8_type_constant_initializer (co : Collab) (tc : ClassTypeconst)
    (out : HhasTypeConstant) (h : from_type_constant co tc = Except.ok out) :
    out.name = tc.name.name ∧
    (out.initializer = none ↔
      (tc.abstract_ = TypeconstAbstractKind.TCAbstract none ∨
       (tc.abstract_ = TypeconstAbstractKind.TCPartiallyAbstract ∧ tc.type_ = none) ∨
       (tc.abstract_ = TypeconstAbstractKind.TCConcrete ∧ tc.type_ = none))) ∧
    (∀ init, tc.abstract_ = TypeconstAbstractKind.TCAbstract (some init) →
      ∃ v, co.hintToTypeConstant [] [] init false false = Except.ok v ∧
        out.initializer = some v) ∧
    (∀ init, tc.abstract_ = TypeconstAbstractKind.TCPartiallyAbstract →
      tc.type_ = some init →
      ∃ v, co.hintToTypeConstant [] [] init false false = Except.ok v ∧
        out.initializer = some v) ∧
    (∀ init, tc.abstract_ = TypeconstAbstractKind.TCConcrete → tc.type_ = some init →
      ∃ v, co.hintToTypeConstant [] [] init false false = Except.ok v ∧
        out.initializer = some v) := by
  rcases tc with ⟨ab, nm, ty⟩
  cases ab with
  | TCAbstract dflt =>
    cases dflt with
    | none =>
      simp only [from_type_constant, bind, Except.bind, pure, Except.pure] at h
      rw [← Except.ok.inj h]
      simp
    | some init0 =>
      cases hv : co.hintToTypeConstant [] [] init0 false false with
      | error e =>
        simp only [from_type_constant, bind, Except.bind, pure, Except.pure, hv,
          Except.map] at h
        exact Except.noConfusion h
      | ok v =>
        simp only [from_type_constant, bind, Except.bind, pure, Except.pure, hv,
          Except.map] at h
        rw [← Except.ok.inj h]
        refine ⟨rfl, by simp, ?_, by simp, by simp⟩
        intro init hinj
        injection hinj with h1
        injection h1 with h2
        subst h2
        exact ⟨v, hv, rfl⟩
  | TCPartiallyAbstract =>
    cases ty with
    | none =>
      simp only [from_type_constant, bind, Except.bind, pure, Except.pure] at h
      rw [← Except.ok.inj h]
      simp
    | some init0 =>
      cases hv : co.hintToTypeConstant [] [] init0 false false with
      | error e =>
        simp only [from_type_constant, bind, Except.bind, pure, Except.pure, hv,
          Except.map] at h
        exact Except.noConfusion h
      | ok v =>
        simp only [from_type_constant, bind, Except.bind, pure, Except.pure, hv,
          Except.map] at h
        rw [← Except.ok.inj h]
        refine ⟨rfl, by simp, by simp, ?_, by simp⟩
        intro init hab hinj
        injection hinj with h2
        subst h2
        exact ⟨v, hv, rfl⟩
  | TCConcrete =>
    cases ty with
    | none =>
      simp only [from_type_constant, bind, Except.bind, pure, Except.pure] at h
      rw [← Except.ok.inj h]
      simp
    | some init0 =>
      cases hv : co.hintToTypeConstant [] [] init0 false false with
      | error e =>
        simp only [from_type_constant, bind, Except.bind, pure, Except.pure, hv,
          Except.map] at h
        exact Except.noConfusion h
      | ok v =>
        simp only [from_type_constant, bind, Except.bind, pure, Except.pure, hv,
          Except.map] at h
        rw [← Except.ok.inj h]
        refine ⟨rfl, by simp, by simp, by simp, ?_⟩
        intro init hab hinj
        injection hinj with h2
        subst h2
        exact ⟨v, hv, rfl⟩

/-- C9: two class declarations that differ only in their markup-component
metadata fields (attribute specs, child-expression specs, category names)
lower to structurally identical descriptors, provided the property and
method collaborators depend on the enclosing class only through its
identity (the interface the specification gives them). -/
theorem C9_markup_metadata_discarded (co : Collab) (c : Class_) (hoisted : HoistKind)
    (xa : List XhpAttr) (xc : List (Pos × XhpChild)) (xcat : Option (Pos × List PString))
    (hprop : ∀ ns tp ic args, co.emitPropertyFromAst
        { c with xhp_attrs := xa, xhp_children := xc, xhp_category := xcat } ns tp ic args =
      co.emitPropertyFromAst c ns tp ic args)
    (hmeth : ∀ ms, co.emitMethodFromAsts
        { c with xhp_attrs := xa, xhp_children := xc, xhp_category := xcat } ms =
      co.emitMethodFromAsts c ms) :
    emit_class co { c with xhp_attrs := xa, xhp_children := xc, xhp_category := xcat }
      hoisted = emit_class co c hoisted := by
  simp only [emit_class, from_class_elt_classvars, from_class_elt_typeconsts,
    from_class_elt_requirements, enumTypeOf, hprop, hmeth]

/-- C10: a class whose name starts with "Closure$" is treated as a
compiler-synthesized closure class: its attribute list is the attribute
collaborator's output with no reified-generics attribute appended, and the
closure-base-extension fatal never fires, so lowering succeeds whenever
the fallible stages succeed — even when the resolved base is the closure
base. -/
theorem C10_closure_class_no_reified_no_fatal (co : Collab) (c : Class_)
    (hoisted : HoistKind) (attrs0 : List HhasAttribute) (us : List String)
    (mtrs : List (MethodRedeclaration × ClassType)) (et : Option TypeInfo)
    (props : List HhasProperty) (tcs : List HhasTypeConstant) (ms : List HhasMethod)
    (hcl : strStartsWith c.name.name "Closure$" = true)
    (hA : co.emitAttrFromAsts c.namespace_ c.user_attributes = Except.ok attrs0)
    (hU : emitUses (c.kind == ClassKind.Cinterface) c.uses = Except.ok us)
    (hM : methodTraitResolutionsOf co c.method_redeclarations = Except.ok mtrs)
    (hE : enumTypeOf co c = Except.ok et)
    (hP : from_class_elt_classvars co c.namespace_ c (hasConst attrs0)
      (c.tparams.list.map (fun x => x.name.name)) = Except.ok props)
    (hT : from_class_elt_typeconsts co c = Except.ok tcs)
    (hMs : co.emitMethodFromAsts c c.methods = Except.ok ms) :
    emit_class co c hoisted =
      Except.ok (emittedDescriptor co c hoisted attrs0 us mtrs et props tcs ms) ∧
    (emittedDescriptor co c hoisted attrs0 us mtrs et props tcs ms).attributes = attrs0 := by
  have hAA := assembledAttributes_closure_class co c attrs0 hcl
  have hB := closureExtendsBlocked_closure_class co c et hcl
  have hP' : from_class_elt_classvars co c.namespace_ c
      (hasConst (assembledAttributes co c attrs0))
      (c.tparams.list.map (fun x => x.name.name)) = Except.ok props := by
    rw [hAA]
    exact hP
  refine ⟨emit_class_construct co c hoisted attrs0 us mtrs et props tcs ms hA hU hM hE hB
    hP' hT hMs, ?_⟩
  simp [emittedDescriptor, hAA]

/-- C1 counterexample: an interface whose (non-empty) trait-use list holds
only a primitive hint lowers successfully — no UserFatalParse is
raised. -/
theorem C1_counterexample :
    c1cex.kind = ClassKind.Cinterface ∧ c1cex.uses.length = 1 ∧
    (emit_class co0 c1cex HoistKind.TopLevel).isOk = true :=
  ⟨rfl, rfl, rfl⟩

/-- C1 witness: the amended claim at a concrete interface with one
named-type trait-use entry. -/
theorem C1_witness :
    emit_class co0 c1w HoistKind.TopLevel =
      Except.error (Error.IncludeTimeFatalException FatalOp.Parse 8
        "Interfaces cannot use traits") :=
  C1_interface_use_trait_fatal co0 c1w HoistKind.TopLevel [] [] 7
    { pos := 8, name := "T" } [] [] rfl rfl rfl
    (fun u hu => absurd hu (List.not_mem_nil u))

/-- C2 counterexample: an enum declaration with no enum base hint lowers
to a descriptor whose base is None, not the builtin enum base. -/
theorem C2_counterexample :
    c2cex.kind = ClassKind.Cenum ∧
    (descriptorOf (emit_class co0 c2cex HoistKind.TopLevel)).map HhasClass.base =
      some none ∧
    some (none : Option ClassType) ≠ some (some (fromRawString "HH\\BuiltinEnum")) :=
  ⟨rfl, rfl, by decide⟩

/-- C2 witness: the amended claim at a concrete enum declaration with an
enum base hint. -/
theorem C2_witness :
    d2w.enum_type.isSome = c2w.enum_.isSome ∧
    (c2w.enum_.isSome = true → d2w.base = some (fromRawString "HH\\BuiltinEnum")) ∧
    (c2w.enum_ = none → d2w.base = c2w.extends_.head?.map (fun x => co0.hintToClass x)) :=
  C2_enum_base_enum_type co0 c2w HoistKind.TopLevel d2w rfl (by rfl)

/-- C3 counterexample: a non-final enum declaration with no enum base hint
lowers to a descriptor whose is_final flag is false. -/
theorem C3_counterexample :
    c3cex.kind = ClassKind.Cenum ∧ c3cex.final_ = false ∧
    (descriptorOf (emit_class co0 c3cex HoistKind.TopLevel)).map
      (fun d => d.flags.is_final) = some false :=
  ⟨rfl, rfl, rfl⟩

/-- C3 witness: the amended claim at a concrete non-final trait
declaration. -/
theorem C3_witness :
    d3w.flags.is_final =
      (c3w.final_ || (c3w.kind == ClassKind.Ctrait) || d3w.enum_type.isSome) ∧
    (c3w.kind = ClassKind.Ctrait → d3w.flags.is_final = true) ∧
    (c3w.kind = ClassKind.Cenum → c3w.enum_.isSome = true → d3w.flags.is_final = true) :=
  C3_trait_enum_final co0 c3w HoistKind.TopLevel d3w (by rfl)

/-- C4 witness: the claim at a concrete ordinary class extending the
closure base. -/
theorem C4_witness :
    emit_class co0 c4w HoistKind.TopLevel =
      Except.error (Error.IncludeTimeFatalException FatalOp.Runtime 1
        "Class cannot extend Closure") :=
  C4_extend_closure_fatal co0 c4w HoistKind.TopLevel [] [] [] none "Closure" rfl rfl rfl
    rfl rfl (by decide) rfl

/-- C5 witness: the claim at a concrete interface extending another
interface. -/
theorem C5_witness :
    (c5w.kind = ClassKind.Cinterface →
      d5w.base = none ∧ d5w.implements = from_implements co0 c5w.extends_) ∧
    (c5w.kind ≠ ClassKind.Cinterface →
      d5w.implements = from_implements co0 c5w.implements) ∧
    (∀ l : List Hint, from_implements co0 l = l.map (fun x => co0.hintToClass x)) :=
  C5_interface_base_and_implements co0 c5w HoistKind.TopLevel d5w (by rfl)

/-- C6 witness: the claim at a concrete ordinary class. -/
theorem C6_witness :
    d6w.flags.no_dynamic_props = d6w.flags.is_const ∧
    d6w.flags.is_const = hasConst d6w.attributes ∧
    (∃ attrs0, co0.emitAttrFromAsts baseClass.namespace_ baseClass.user_attributes =
      Except.ok attrs0 ∧ d6w.attributes = assembledAttributes co0 baseClass attrs0) :=
  C6_no_dynamic_props_is_const co0 baseClass HoistKind.TopLevel d6w (by rfl)

/-- C7 witness: the abort clause of the claim at a concrete class whose
method redeclaration names the any-type hint. -/
theorem C7_witness :
    emit_class co0 c7w HoistKind.TopLevel =
      Except.error (Error.Unrecoverable
        "Im convinced that this should be an error caught in naming") :=
  C7_string_of_trait_table.2.2.2.2.2.2.2.2.2.2.2 co0 c7w HoistKind.TopLevel [] []
    (Error.Unrecoverable "Im convinced that this should be an error caught in naming")
    rfl rfl rfl

/-- C8 witness: the claim at a concrete concrete-kind type constant with
an initializer hint. -/
theorem C8_witness :
    out8w.name = tc8w.name.name ∧
    (out8w.initializer = none ↔
      (tc8w.abstract_ = TypeconstAbstractKind.TCAbstract none ∨
       (tc8w.abstract_ = TypeconstAbstractKind.TCPartiallyAbstract ∧ tc8w.type_ = none) ∨
       (tc8w.abstract_ = TypeconstAbstractKind.TCConcrete ∧ tc8w.type_ = none))) ∧
    (∀ init, tc8w.abstract_ = TypeconstAbstractKind.TCAbstract (some init) →
      ∃ v, co0.hintToTypeConstant [] [] init false false = Except.ok v ∧
        out8w.initializer = some v) ∧
    (∀ init, tc8w.abstract_ = TypeconstAbstractKind.TCPartiallyAbstract →
      tc8w.type_ = some init →
      ∃ v, co0.hintToTypeConstant [] [] init false false = Except.ok v ∧
        out8w.initializer = some v) ∧
    (∀ init, tc8w.abstract_ = TypeconstAbstractKind.TCConcrete → tc8w.type_ = some init →
      ∃ v, co0.hintToTypeConstant [] [] init false false = Except.ok v ∧
        out8w.initializer = some v) :=
  C8_type_constant_initializer co0 tc8w out8w (by rfl)

/-- C9 witness: the claim at a concrete class varied in its
markup-component metadata, under collaborators that depend on the class
only through its identity. -/
theorem C9_witness :
    emit_class co0
      { baseClass with xhp_attrs := [], xhp_children := xc9, xhp_category := xcat9 }
      HoistKind.TopLevel = emit_class co0 baseClass HoistKind.TopLevel :=
  C9_markup_metadata_discarded co0 baseClass HoistKind.TopLevel [] xc9 xcat9
    (fun _ _ _ _ => rfl) (fun _ => rfl)

/-- C10 witness: the claim at a concrete compiler-synthesized closure
class extending the closure base. -/
theorem C10_witness :
    emit_class co0 c10w HoistKind.TopLevel =
      Except.ok (emittedDescriptor co0 c10w HoistKind.TopLevel [] [] [] none [] [] []) ∧
    (emittedDescriptor co0 c10w HoistKind.TopLevel [] [] [] none [] [] []).attributes =
      [] :=
  C10_closure_class_no_reified_no_fatal co0 c10w HoistKind.TopLevel [] [] [] none [] [] []
    rfl rfl rfl rfl rfl rfl rfl rfl

end EmitClass
